import Mathlib

/-!
Shallow embedding of `src/server.py` (github-codeowners MCP server).

The server keeps a TTL + ETag cache of parsed CODEOWNERS documents
(`CodeownersCache.get_codeowners`), a file-existence probe
(`get_file_exists`) and the ownership resolver (`get_file_owner`).

Modelling choices:
* The external `codeowners` library (`CodeOwners(content)` / `.of(path)`) is
  opaque to the server, so a parsed rule set is embedded as a function from a
  path to the ordered list of `(kind, identifier)` matches, and the
  `CodeOwners` constructor is a parameter `parse : String → RuleSet`.
* Network calls (`requests.get`) are embedded by passing the `HttpResponse`
  the call would return as an explicit argument; the embedded function
  branches on it exactly as the Python code branches on `response`.
* The three dictionaries `cache`, `etags`, `timestamps` of `CodeownersCache`
  become a `CacheState` record of functions `String → Option _`; Python's
  `d[key]` (which raises `KeyError` when absent) is `dictGet`, and
  `d.get(key, 0)` is `(f key).getD 0`.
* `time.time()` values are embedded as `Int`; every mutation of the state is
  explicit, and each embedded operation returns its result
  (`Except SrvError _`, a `raise` being `.error`) together with the final
  state, so that mutations performed before a raise remain visible.
-/

namespace GithubCodeowners

/-- Owner kinds of the `codeowners` library: the first component of the
tuples returned by `CodeOwners.of` (`"USERNAME" | "TEAM" | "EMAIL"`). -/
inductive OwnerKind where
  | username
  | team
  | email
deriving DecidableEq, Repr

/-- A parsed CODEOWNERS document, kept opaque by the server: it is only ever
queried via `.of(path)`, which yields the ordered `(kind, identifier)`
matches for the path. -/
abbrev RuleSet := String → List (OwnerKind × String)

/-- The part of a `requests` response that `server.py` inspects:
`status_code`, `text`, and `headers.get("ETag")`. -/
structure HttpResponse where
  status_code : Nat
  text : String
  etag : Option String
deriving DecidableEq, Repr

/-- The distinct failures `server.py` can raise:
* `fetchFailed`: the `raise Exception(f"Failed to fetch CODEOWNERS: ...")`
  of `get_codeowners` (any status other than 200/304);
* `keyError`: Python's `KeyError` from `self.cache[key]` when the key is
  absent;
* `existsFailed`: the `raise Exception(f"Unexpected error when checking file
  existence: ...")` of `get_file_exists`;
* `fileNotFound`: the `FileNotFoundError` of `get_file_owner`. -/
inductive SrvError where
  | fetchFailed (status : Nat) (body : String)
  | keyError (key : String)
  | existsFailed (status : Nat) (body : String)
  | fileNotFound (path owner repo branch : String)
deriving DecidableEq, Repr

/-- The mutable state of `CodeownersCache`: the dictionaries `self.cache`,
`self.etags` and `self.timestamps` (each keyed by the string key). -/
structure CacheState where
  cache : String → Option RuleSet
  etags : String → Option String
  timestamps : String → Option Int

/-- The state built by `CodeownersCache.__init__`: three empty dicts. -/
def initState : CacheState :=
  { cache := fun _ => none, etags := fun _ => none, timestamps := fun _ => none }

/-- The key computation of `get_codeowners`: `f"{owner}/{repo}@{branch}"`. -/
def makeKey (owner repo branch : String) : String :=
  owner ++ "/" ++ repo ++ "@" ++ branch

/-- The cache-hit test of `get_codeowners`:
`key in self.cache and (now - self.timestamps.get(key, 0) < CACHE_TTL_SECS)`. -/
def cacheFresh (st : CacheState) (ttl now : Int) (key : String) : Bool :=
  (st.cache key).isSome && decide (now - ((st.timestamps key).getD 0) < ttl)

/-- Python's `self.cache[key]`: the stored rule set, or a `KeyError`. -/
def dictGet (d : String → Option RuleSet) (key : String) : Except SrvError RuleSet :=
  match d key with
  | some v => .ok v
  | none => .error (.keyError key)

/-- `CodeownersCache.get_codeowners(owner, repo, branch)`, `server.py`
lines 40-72. `resp` is the response the `requests.get` call at line 56 would
return; the result pairs the returned rule set (or the raised error) with the
state of the three dictionaries after the call. -/
def get_codeowners (parse : String → RuleSet) (ttl : Int) (st : CacheState)
    (now : Int) (resp : HttpResponse) (owner repo : String)
    (branch : String := "main") :
    Except SrvError RuleSet × CacheState :=
  let key := makeKey owner repo branch
  if cacheFresh st ttl now key then
    (dictGet st.cache key, st)
  else if resp.status_code = 304 then
    let st' : CacheState :=
      { st with timestamps := fun k => if k = key then some now else st.timestamps k }
    (dictGet st.cache key, st')
  else if resp.status_code = 200 then
    let rs := parse resp.text
    let st' : CacheState :=
      { cache := fun k => if k = key then some rs else st.cache k
        etags := fun k => if k = key then resp.etag else st.etags k
        timestamps := fun k => if k = key then some now else st.timestamps k }
    (dictGet st'.cache key, st')
  else
    (.error (.fetchFailed resp.status_code resp.text), st)

/-- `get_file_exists(owner, repo, path, branch)`, `server.py` lines 88-112.
`resp` is the response of the `requests.get` at line 104; the function only
branches on the status code. -/
def get_file_exists (resp : HttpResponse) : Except SrvError Bool :=
  if resp.status_code = 200 then .ok true
  else if resp.status_code = 404 then .ok false
  else .error (.existsFailed resp.status_code resp.text)

/-- `get_file_owner(owner, repo, path, branch)`, `server.py` lines 115-142.
`coResp` is the response the CODEOWNERS fetch would see (if one happens) and
`exResp` the response the existence probe would see (if one happens). The
`try/except` of the Python code only logs and re-raises, so it has no
semantic effect. -/
def get_file_owner (parse : String → RuleSet) (ttl : Int) (st : CacheState)
    (now : Int) (coResp exResp : HttpResponse)
    (owner repo path : String) (branch : String := "main") :
    Except SrvError (List String) × CacheState :=
  match get_codeowners parse ttl st now coResp owner repo branch with
  | (.error e, st') => (.error e, st')
  | (.ok codeowners, st') =>
    let owners := codeowners path
    if owners = [] then
      match get_file_exists exResp with
      | .error e => (.error e, st')
      | .ok true => (.ok [], st')
      | .ok false => (.error (.fileNotFound path owner repo branch), st')
    else
      (.ok (owners.map Prod.snd), st')

/-- Sequential composition of `get_codeowners` calls on one key, one call per
timestamp in the list, all observing the same remote response; alongside the
results and the final state it counts how many calls reach the `requests.get`
line — i.e. how many calls find the cache-hit test false. Because the Python
code holds `self.lock` for the whole body of `get_codeowners` (network call
included), any concurrent execution of N calls is equivalent to such a
sequential composition in the order the lock was acquired, with the
nondecreasing `time.time()` values read under the lock. -/
def runCalls (parse : String → RuleSet) (ttl : Int) (resp : HttpResponse)
    (owner repo branch : String) :
    CacheState → List Int → List (Except SrvError RuleSet) × CacheState × Nat
  | st, [] => ([], st, 0)
  | st, now :: rest =>
    let fetched : Nat := if cacheFresh st ttl now (makeKey owner repo branch) then 0 else 1
    let out := get_codeowners parse ttl st now resp owner repo branch
    let (results, stF, n) := runCalls parse ttl resp owner repo branch out.2 rest
    (out.1 :: results, stF, fetched + n)

/-! Concrete fixtures used by witnesses and counterexamples. `sampleParse`
instantiates the external `codeowners` library with the matcher of the
spec's worked example (one rule mapping `*.go` to `@acme/backend`). -/

/-- Example instantiation of the external `CodeOwners` parser: whatever the
document text, `main.go` is owned by the team `@acme/backend` and every
other path is unmatched. -/
def sampleParse : String → RuleSet := fun _ p =>
  if p = "main.go" then [(OwnerKind.team, "@acme/backend")] else []

/-- A transport-error response. -/
def resp500 : HttpResponse := { status_code := 500, text := "boom", etag := none }

/-- A not-found response. -/
def resp404 : HttpResponse := { status_code := 404, text := "Not Found", etag := none }

/-- A not-modified response. -/
def resp304 : HttpResponse := { status_code := 304, text := "", etag := none }

/-- A fresh-content response. -/
def resp200 : HttpResponse :=
  { status_code := 200, text := "*.go @acme/backend", etag := some "etag-v1" }

/-- A cache state holding one entry, for key `acme/widgets@main`, fetched at
time 100 with validator `etag-v1`. -/
def stWithEntry : CacheState :=
  { cache := fun k =>
      if k = makeKey "acme" "widgets" "main" then some (sampleParse "*.go @acme/backend") else none
    etags := fun k =>
      if k = makeKey "acme" "widgets" "main" then some "etag-v1" else none
    timestamps := fun k =>
      if k = makeKey "acme" "widgets" "main" then some 100 else none }

/-! ## Claim theorems -/

/-- C4: for a key with an existing entry whose age `now - fetchedAt` is
strictly below the freshness window, `get_codeowners` returns that entry's
rule set and leaves the whole state unchanged; the response argument is
universally quantified, so the result does not depend on any network
activity (zero network calls). -/
theorem C4_cache_hit (parse : String → RuleSet) (ttl : Int) (st : CacheState)
    (now : Int) (resp : HttpResponse) (owner repo branch : String)
    (rs : RuleSet) (t : Int)
    (hc : st.cache (makeKey owner repo branch) = some rs)
    (ht : st.timestamps (makeKey owner repo branch) = some t)
    (hage : now - t < ttl) :
    get_codeowners parse ttl st now resp owner repo branch = (.ok rs, st) := by
  have hf : cacheFresh st ttl now (makeKey owner repo branch) = true := by
    simp [cacheFresh, hc, ht, hage]
  simp [get_codeowners, hf, dictGet, hc]

/-- C4 witness: at time 150, 50 seconds after the fetch recorded in
`stWithEntry` and inside the 300-second window, the entry is served as is,
even though the (never consulted) network would answer 500. -/
theorem C4_cache_hit_witness :
    stWithEntry.cache (makeKey "acme" "widgets" "main")
        = some (sampleParse "*.go @acme/backend") ∧
    stWithEntry.timestamps (makeKey "acme" "widgets" "main") = some 100 ∧
    (150 : Int) - 100 < 300 ∧
    get_codeowners sampleParse 300 stWithEntry 150 resp500 "acme" "widgets" "main"
        = (.ok (sampleParse "*.go @acme/backend"), stWithEntry) :=
  ⟨rfl, rfl, by decide,
    C4_cache_hit sampleParse 300 stWithEntry 150 resp500 "acme" "widgets" "main"
      (sampleParse "*.go @acme/backend") 100 rfl rfl (by decide)⟩

/-- C1 counterexample: starting from the empty cache, a 404 response makes
`get_codeowners` raise the fetch-failure exception and cache nothing — it
does not cache an empty rule set and does not return without error. -/
theorem C1_counterexample :
    (get_codeowners sampleParse 300 initState 1000 resp404 "acme" "widgets" "main").1
        = .error (.fetchFailed 404 "Not Found") ∧
    ((get_codeowners sampleParse 300 initState 1000 resp404 "acme" "widgets" "main").2).cache
        (makeKey "acme" "widgets" "main") = none :=
  ⟨rfl, rfl⟩

/-- C1 amended: when the fetch would be reached (the cache-hit test fails)
and the response is a 404, `get_codeowners` raises the same fetch-failure
error as any other non-200/304 status and leaves the state unchanged, so the
NotFound outcome is neither cached nor converted to an empty rule set. -/
theorem C1_notfound_raises (parse : String → RuleSet) (ttl : Int)
    (st : CacheState) (now : Int) (resp : HttpResponse) (owner repo branch : String)
    (hstale : cacheFresh st ttl now (makeKey owner repo branch) = false)
    (h404 : resp.status_code = 404) :
    get_codeowners parse ttl st now resp owner repo branch
        = (.error (.fetchFailed 404 resp.text), st) := by
  simp [get_codeowners, hstale, h404]

/-- C1 amended witness: concrete 404 fetch from the empty cache. -/
theorem C1_notfound_raises_witness :
    cacheFresh initState 300 1000 (makeKey "acme" "widgets" "main") = false ∧
    resp404.status_code = 404 ∧
    get_codeowners sampleParse 300 initState 1000 resp404 "acme" "widgets" "main"
        = (.error (.fetchFailed 404 "Not Found"), initState) :=
  ⟨rfl, rfl,
    C1_notfound_raises sampleParse 300 initState 1000 resp404 "acme" "widgets" "main"
      rfl rfl⟩

/-- A cache state holding the same single entry as `stWithEntry` but fetched
at time 0, so that at time 1000 it is expired for a 300-second window. -/
def stExpired : CacheState :=
  { cache := fun k =>
      if k = makeKey "acme" "widgets" "main" then some (sampleParse "*.go @acme/backend") else none
    etags := fun k =>
      if k = makeKey "acme" "widgets" "main" then some "etag-v1" else none
    timestamps := fun k =>
      if k = makeKey "acme" "widgets" "main" then some 0 else none }

/-- C2 counterexample: for a key holding an expired prior entry, a transport
error (status 500) makes `get_codeowners` raise the fetch-failure exception
instead of serving the stale cached rule set. -/
theorem C2_counterexample :
    stExpired.cache (makeKey "acme" "widgets" "main")
        = some (sampleParse "*.go @acme/backend") ∧
    (get_codeowners sampleParse 300 stExpired 1000 resp500 "acme" "widgets" "main").1
        = .error (.fetchFailed 500 "boom") :=
  ⟨rfl, rfl⟩

/-- C2 amended: on any fetch outcome other than 200 and 304 — transport
errors included — `get_codeowners` raises, even when a prior (expired) entry
for the key exists; no stale-serve is implemented. -/
theorem C2_no_stale_serve (parse : String → RuleSet) (ttl : Int)
    (st : CacheState) (now : Int) (resp : HttpResponse) (owner repo branch : String)
    (rs : RuleSet)
    (hc : st.cache (makeKey owner repo branch) = some rs)
    (hstale : cacheFresh st ttl now (makeKey owner repo branch) = false)
    (h200 : resp.status_code ≠ 200) (h304 : resp.status_code ≠ 304) :
    (get_codeowners parse ttl st now resp owner repo branch).1
        = .error (.fetchFailed resp.status_code resp.text) := by
  simp [get_codeowners, hstale, h200, h304]

/-- C2 amended witness: the expired entry of `stExpired` does not prevent
the 500 outcome from raising. -/
theorem C2_no_stale_serve_witness :
    stExpired.cache (makeKey "acme" "widgets" "main")
        = some (sampleParse "*.go @acme/backend") ∧
    cacheFresh stExpired 300 1000 (makeKey "acme" "widgets" "main") = false ∧
    resp500.status_code ≠ 200 ∧ resp500.status_code ≠ 304 ∧
    (get_codeowners sampleParse 300 stExpired 1000 resp500 "acme" "widgets" "main").1
        = .error (.fetchFailed 500 "boom") :=
  ⟨rfl, by decide, by decide, by decide,
    C2_no_stale_serve sampleParse 300 stExpired 1000 resp500 "acme" "widgets" "main"
      (sampleParse "*.go @acme/backend") rfl (by decide) (by decide) (by decide)⟩

/-- C5: for a key with an existing entry, a refresh that returns 304 yields
the cached rule set, changes only that key's timestamp (to `now`), leaves
the rule-set and etag dictionaries untouched, and makes the entry fresh
again: any immediately following call at a time `now'` with
`now' - now < ttl` is a cache hit returning the same rule set with no
further state change, whatever response the network would give it. -/
theorem C5_not_modified (parse : String → RuleSet) (ttl : Int) (st : CacheState)
    (now : Int) (resp : HttpResponse) (owner repo branch : String) (rs : RuleSet)
    (hc : st.cache (makeKey owner repo branch) = some rs)
    (hstale : cacheFresh st ttl now (makeKey owner repo branch) = false)
    (h304 : resp.status_code = 304) :
    ∃ st', get_codeowners parse ttl st now resp owner repo branch = (.ok rs, st') ∧
      st'.cache = st.cache ∧
      st'.etags = st.etags ∧
      st'.timestamps (makeKey owner repo branch) = some now ∧
      (∀ k, k ≠ makeKey owner repo branch → st'.timestamps k = st.timestamps k) ∧
      ∀ now' resp', now' - now < ttl →
        get_codeowners parse ttl st' now' resp' owner repo branch = (.ok rs, st') := by
  refine ⟨{ st with timestamps := fun k =>
      if k = makeKey owner repo branch then some now else st.timestamps k },
    ?_, rfl, rfl, by simp, fun k hk => by simp [hk], ?_⟩
  · simp [get_codeowners, hstale, h304, dictGet, hc]
  · intro now' resp' hage
    have hf : cacheFresh
        { st with timestamps := fun k =>
            if k = makeKey owner repo branch then some now else st.timestamps k }
        ttl now' (makeKey owner repo branch) = true := by
      simp [cacheFresh, hc, hage]
    simp [get_codeowners, hf, dictGet, hc]

/-- C5 witness: refreshing the expired entry of `stExpired` with a 304 at
time 1000 serves the cached rule set, rewrites only the timestamp, and a
second call at time 1100 is a hit. -/
theorem C5_not_modified_witness :
    stExpired.cache (makeKey "acme" "widgets" "main")
        = some (sampleParse "*.go @acme/backend") ∧
    cacheFresh stExpired 300 1000 (makeKey "acme" "widgets" "main") = false ∧
    resp304.status_code = 304 ∧
    ∃ st', get_codeowners sampleParse 300 stExpired 1000 resp304 "acme" "widgets" "main"
          = (.ok (sampleParse "*.go @acme/backend"), st') ∧
      st'.cache = stExpired.cache ∧
      st'.etags = stExpired.etags ∧
      st'.timestamps (makeKey "acme" "widgets" "main") = some 1000 ∧
      (∀ k, k ≠ makeKey "acme" "widgets" "main" → st'.timestamps k = stExpired.timestamps k) ∧
      ∀ now' resp', now' - 1000 < 300 →
        get_codeowners sampleParse 300 st' now' resp' "acme" "widgets" "main"
          = (.ok (sampleParse "*.go @acme/backend"), st') :=
  ⟨rfl, by decide, rfl,
    C5_not_modified sampleParse 300 stExpired 1000 resp304 "acme" "widgets" "main"
      (sampleParse "*.go @acme/backend") rfl (by decide) rfl⟩

/-- C6: a 304 outcome for a key with no prior entry does not surface as the
discriminated fetch-failure error: the code first writes `timestamps[key]`
and then crashes on `self.cache[key]` with an undiscriminated `KeyError`,
leaving the partial timestamp write behind. -/
theorem C6_keyerror_on_304 (parse : String → RuleSet) (ttl : Int) (st : CacheState)
    (now : Int) (resp : HttpResponse) (owner repo branch : String)
    (hc : st.cache (makeKey owner repo branch) = none)
    (h304 : resp.status_code = 304) :
    (get_codeowners parse ttl st now resp owner repo branch).1
        = .error (.keyError (makeKey owner repo branch)) ∧
    ((get_codeowners parse ttl st now resp owner repo branch).2).timestamps
        (makeKey owner repo branch) = some now := by
  have hstale : cacheFresh st ttl now (makeKey owner repo branch) = false := by
    simp [cacheFresh, hc]
  constructor
  · simp [get_codeowners, hstale, h304, dictGet, hc]
  · simp [get_codeowners, hstale, h304]

/-- C6 witness: a 304 against the empty cache crashes with the KeyError for
the key, after having recorded the timestamp. -/
theorem C6_keyerror_on_304_witness :
    initState.cache (makeKey "acme" "widgets" "main") = none ∧
    resp304.status_code = 304 ∧
    ((get_codeowners sampleParse 300 initState 1000 resp304 "acme" "widgets" "main").1
        = .error (.keyError (makeKey "acme" "widgets" "main")) ∧
      ((get_codeowners sampleParse 300 initState 1000 resp304 "acme" "widgets" "main").2).timestamps
        (makeKey "acme" "widgets" "main") = some 1000) :=
  ⟨rfl, rfl,
    C6_keyerror_on_304 sampleParse 300 initState 1000 resp304 "acme" "widgets" "main" rfl rfl⟩

/-- C8: on every fetch outcome that is neither 200 nor 304 — the case in
which `get_codeowners` raises its fetch-failure exception — the three
dictionaries come back exactly as they were for every key, and if the fetch
is actually reached (no cache hit) the raised error is the discriminated
fetch failure. -/
theorem C8_state_unchanged_on_error (parse : String → RuleSet) (ttl : Int)
    (st : CacheState) (now : Int) (resp : HttpResponse) (owner repo branch : String)
    (h200 : resp.status_code ≠ 200) (h304 : resp.status_code ≠ 304) :
    (get_codeowners parse ttl st now resp owner repo branch).2 = st ∧
    (cacheFresh st ttl now (makeKey owner repo branch) = false →
      (get_codeowners parse ttl st now resp owner repo branch).1
          = .error (.fetchFailed resp.status_code resp.text)) := by
  by_cases hf : cacheFresh st ttl now (makeKey owner repo branch) = true
  · constructor
    · simp [get_codeowners, hf]
    · intro hff
      rw [hf] at hff
      exact absurd hff (by decide)
  · have hff : cacheFresh st ttl now (makeKey owner repo branch) = false := by
      revert hf
      cases cacheFresh st ttl now (makeKey owner repo branch) <;> simp
    constructor
    · simp [get_codeowners, hff, h200, h304]
    · intro _
      simp [get_codeowners, hff, h200, h304]

/-- C8 witness: the 500 fetch against `stExpired` raises and leaves the
state record untouched. -/
theorem C8_state_unchanged_on_error_witness :
    resp500.status_code ≠ 200 ∧ resp500.status_code ≠ 304 ∧
    ((get_codeowners sampleParse 300 stExpired 1000 resp500 "acme" "widgets" "main").2
        = stExpired ∧
      (cacheFresh stExpired 300 1000 (makeKey "acme" "widgets" "main") = false →
        (get_codeowners sampleParse 300 stExpired 1000 resp500 "acme" "widgets" "main").1
            = .error (.fetchFailed 500 "boom"))) :=
  ⟨by decide, by decide,
    C8_state_unchanged_on_error sampleParse 300 stExpired 1000 resp500
      "acme" "widgets" "main" (by decide) (by decide)⟩

/-- C3: assuming the cache produced a rule set, `get_file_owner` fails with
`FileNotFoundError` exactly when the match for the path is empty and the
existence probe answers `false`; an empty match with an existing file yields
the empty list, and a non-empty match yields the owners — for every `exResp`,
so without consulting the existence probe. -/
theorem C3_filenotfound_iff (parse : String → RuleSet) (ttl : Int) (st : CacheState)
    (now : Int) (coResp exResp : HttpResponse) (owner repo path branch : String)
    (rs : RuleSet) (st' : CacheState)
    (hco : get_codeowners parse ttl st now coResp owner repo branch = (.ok rs, st')) :
    ((get_file_owner parse ttl st now coResp exResp owner repo path branch).1
        = .error (.fileNotFound path owner repo branch) ↔
      rs path = [] ∧ get_file_exists exResp = .ok false) ∧
    (rs path = [] → get_file_exists exResp = .ok true →
      (get_file_owner parse ttl st now coResp exResp owner repo path branch).1 = .ok []) ∧
    (rs path ≠ [] →
      (get_file_owner parse ttl st now coResp exResp owner repo path branch).1
          = .ok ((rs path).map Prod.snd)) := by
  refine ⟨⟨?_, ?_⟩, ?_, ?_⟩
  · intro h
    by_cases hp : rs path = []
    · by_cases h200 : exResp.status_code = 200
      · simp [get_file_owner, hco, hp, get_file_exists, h200] at h
      · by_cases h404 : exResp.status_code = 404
        · exact ⟨hp, by simp [get_file_exists, h200, h404]⟩
        · simp [get_file_owner, hco, hp, get_file_exists, h200, h404] at h
    · simp [get_file_owner, hco, hp] at h
  · rintro ⟨hp, hex⟩
    simp [get_file_owner, hco, hp, hex]
  · intro hp hex
    simp [get_file_owner, hco, hp, hex]
  · intro hp
    simp [get_file_owner, hco, hp]

/-- C3 witness: with the fresh entry of `stWithEntry`, the unmatched path
`missing.txt` whose existence probe answers 404 gives exactly the
`FileNotFoundError`, while the same path with a 200 probe gives `[]`. -/
theorem C3_filenotfound_iff_witness :
    get_codeowners sampleParse 300 stWithEntry 150 resp500 "acme" "widgets" "main"
        = (.ok (sampleParse "*.go @acme/backend"), stWithEntry) ∧
    (((get_file_owner sampleParse 300 stWithEntry 150 resp500 resp404
          "acme" "widgets" "missing.txt" "main").1
        = .error (.fileNotFound "missing.txt" "acme" "widgets" "main") ↔
      sampleParse "*.go @acme/backend" "missing.txt" = [] ∧
        get_file_exists resp404 = .ok false) ∧
      (sampleParse "*.go @acme/backend" "missing.txt" = [] →
        get_file_exists resp404 = .ok true →
        (get_file_owner sampleParse 300 stWithEntry 150 resp500 resp404
            "acme" "widgets" "missing.txt" "main").1 = .ok []) ∧
      (sampleParse "*.go @acme/backend" "missing.txt" ≠ [] →
        (get_file_owner sampleParse 300 stWithEntry 150 resp500 resp404
            "acme" "widgets" "missing.txt" "main").1
          = .ok ((sampleParse "*.go @acme/backend" "missing.txt").map Prod.snd))) :=
  ⟨rfl,
    C3_filenotfound_iff sampleParse 300 stWithEntry 150 resp500 resp404
      "acme" "widgets" "missing.txt" "main"
      (sampleParse "*.go @acme/backend") stWithEntry rfl⟩

/-- A rule set with duplicate owners across rules, to exhibit that the
resolver neither deduplicates nor reorders. -/
def dupRules : RuleSet := fun p =>
  if p = "src/a.go" then
    [(OwnerKind.username, "@alice"), (OwnerKind.team, "@acme/backend"),
      (OwnerKind.username, "@alice")]
  else []

/-- A cache state holding `dupRules` for key `acme/widgets@main`, fetched at
time 100. -/
def stDup : CacheState :=
  { cache := fun k => if k = makeKey "acme" "widgets" "main" then some dupRules else none
    etags := fun _ => none
    timestamps := fun k => if k = makeKey "acme" "widgets" "main" then some 100 else none }

/-- C7: when the match for the path is non-empty, `get_file_owner` returns
exactly the second components of the match list, in the matcher's order —
the list comprehension `[o for _, o in owners]` — with no reordering and no
deduplication, and for every `exResp`, so the existence probe is never
consulted. -/
theorem C7_identifiers_in_match_order (parse : String → RuleSet) (ttl : Int)
    (st : CacheState) (now : Int) (coResp exResp : HttpResponse)
    (owner repo path branch : String) (rs : RuleSet) (st' : CacheState)
    (hco : get_codeowners parse ttl st now coResp owner repo branch = (.ok rs, st'))
    (hne : rs path ≠ []) :
    (get_file_owner parse ttl st now coResp exResp owner repo path branch).1
        = .ok ((rs path).map Prod.snd) := by
  simp [get_file_owner, hco, hne]

/-- C7 witness: the three matches for `src/a.go` in `dupRules` come back as
their identifiers in order, `@alice` kept twice. -/
theorem C7_identifiers_in_match_order_witness :
    get_codeowners sampleParse 300 stDup 150 resp500 "acme" "widgets" "main"
        = (.ok dupRules, stDup) ∧
    dupRules "src/a.go" ≠ [] ∧
    (get_file_owner sampleParse 300 stDup 150 resp500 resp500
        "acme" "widgets" "src/a.go" "main").1
      = .ok ["@alice", "@acme/backend", "@alice"] :=
  ⟨rfl, by decide,
    C7_identifiers_in_match_order sampleParse 300 stDup 150 resp500 resp500
      "acme" "widgets" "src/a.go" "main" dupRules stDup rfl (by decide)⟩

/-- Helper: from a state whose entry for the key was stored at `t0`, a run of
calls whose times all satisfy `t - t0 < ttl` consists of cache hits only:
every result is the stored rule set, the state never changes, and no call
reaches the network. -/
theorem runCalls_all_hits (parse : String → RuleSet) (ttl : Int) (resp : HttpResponse)
    (owner repo branch : String) (rs : RuleSet) (t0 : Int) (st : CacheState)
    (hc : st.cache (makeKey owner repo branch) = some rs)
    (ht : st.timestamps (makeKey owner repo branch) = some t0)
    (ts : List Int) (hf : ∀ t ∈ ts, t - t0 < ttl) :
    runCalls parse ttl resp owner repo branch st ts
      = (List.replicate ts.length (.ok rs), st, 0) := by
  induction ts with
  | nil => rfl
  | cons t ts ih =>
    have hfr : cacheFresh st ttl t (makeKey owner repo branch) = true := by
      simp [cacheFresh, hc, ht, hf t (List.mem_cons_self t ts)]
    have hgc : get_codeowners parse ttl st t resp owner repo branch = (.ok rs, st) := by
      simp [get_codeowners, hfr, dictGet, hc]
    simp [runCalls, hfr, hgc, ih (fun u hu => hf u (List.mem_cons_of_mem t hu)),
      List.replicate_succ]

/-- C9: because `get_codeowners` holds the instance-wide lock across its
whole body (network call included), N concurrent calls execute as a
sequential run in lock order. For such a run on one key — the first call at
`t0` finding the entry missing or expired, the rest within the freshness
window — the fetch line is reached exactly once, and every caller observes
the rule set produced by that single 200 fetch. -/
theorem C9_single_fetch_per_key (parse : String → RuleSet) (ttl : Int)
    (resp : HttpResponse) (owner repo branch : String) (st : CacheState)
    (t0 : Int) (rest : List Int)
    (hstale : cacheFresh st ttl t0 (makeKey owner repo branch) = false)
    (h200 : resp.status_code = 200)
    (hf : ∀ t ∈ rest, t - t0 < ttl) :
    runCalls parse ttl resp owner repo branch st (t0 :: rest)
      = (List.replicate (rest.length + 1) (.ok (parse resp.text)),
          (get_codeowners parse ttl st t0 resp owner repo branch).2, 1) := by
  have hcache : ((get_codeowners parse ttl st t0 resp owner repo branch).2).cache
      (makeKey owner repo branch) = some (parse resp.text) := by
    simp [get_codeowners, hstale, h200]
  have hts : ((get_codeowners parse ttl st t0 resp owner repo branch).2).timestamps
      (makeKey owner repo branch) = some t0 := by
    simp [get_codeowners, hstale, h200]
  have h1 := runCalls_all_hits parse ttl resp owner repo branch (parse resp.text) t0
      ((get_codeowners parse ttl st t0 resp owner repo branch).2) hcache hts rest hf
  have hout : (get_codeowners parse ttl st t0 resp owner repo branch).1
      = .ok (parse resp.text) := by
    simp [get_codeowners, hstale, h200, dictGet]
  simp [runCalls, hstale, h1, hout, List.replicate_succ]

/-- C9 witness: three callers at times 0, 10, 20 on the empty cache trigger
exactly one fetch and all observe its parsed rule set. -/
theorem C9_single_fetch_per_key_witness :
    cacheFresh initState 300 0 (makeKey "acme" "widgets" "main") = false ∧
    resp200.status_code = 200 ∧
    (∀ t ∈ ([10, 20] : List Int), t - 0 < 300) ∧
    runCalls sampleParse 300 resp200 "acme" "widgets" "main" initState [0, 10, 20]
      = (List.replicate 3 (.ok (sampleParse "*.go @acme/backend")),
          (get_codeowners sampleParse 300 initState 0 resp200 "acme" "widgets" "main").2, 1) :=
  ⟨rfl, rfl, by decide,
    C9_single_fetch_per_key sampleParse 300 resp200 "acme" "widgets" "main" initState
      0 [10, 20] rfl rfl (by decide)⟩

/-- Helper: splitting two list concatenations at a separator character that
occurs in neither left part identifies the parts. -/
theorem append_cons_char_inj {c : Char} (xs₁ : List Char) :
    ∀ {ys₁ xs₂ ys₂ : List Char}, c ∉ xs₁ → c ∉ xs₂ →
      xs₁ ++ c :: ys₁ = xs₂ ++ c :: ys₂ → xs₁ = xs₂ ∧ ys₁ = ys₂ := by
  induction xs₁ with
  | nil =>
    intro ys₁ xs₂ ys₂ h1 h2 h
    cases xs₂ with
    | nil => simpa using h
    | cons y ys =>
      simp only [List.nil_append, List.cons_append, List.cons.injEq] at h
      exact absurd (by rw [h.1]; exact List.mem_cons_self y ys) h2
  | cons x xs ih =>
    intro ys₁ xs₂ ys₂ h1 h2 h
    cases xs₂ with
    | nil =>
      simp only [List.nil_append, List.cons_append, List.cons.injEq] at h
      exact absurd (by rw [h.1]; exact List.mem_cons_self c xs) h1
    | cons y ys =>
      rw [List.cons_append, List.cons_append] at h
      injection h with hxy htl
      have hrec := ih (fun hm => h1 (List.mem_cons_of_mem x hm))
        (fun hm => h2 (List.mem_cons_of_mem y hm)) htl
      exact ⟨by rw [hxy, hrec.1], hrec.2⟩

/-- C10 counterexample: the key encoding is not injective — the triples
`("a/b", "c", "main")` and `("a", "b/c", "main")` are distinct but share the
key `a/b/c@main`, and after a fetch for the first triple a query for the
second is served the first triple's rule set from cache. -/
theorem C10_counterexample :
    makeKey "a/b" "c" "main" = makeKey "a" "b/c" "main" ∧
    (("a/b", "c", "main") : String × String × String) ≠ ("a", "b/c", "main") ∧
    (get_codeowners sampleParse 300
        ((get_codeowners sampleParse 300 initState 0 resp200 "a/b" "c" "main").2)
        10 resp500 "a" "b/c" "main").1
      = .ok (sampleParse "*.go @acme/backend") :=
  ⟨rfl, by decide, rfl⟩

/-- C10 amended: the key encoding `owner ++ "/" ++ repo ++ "@" ++ branch` is
injective — so distinct triples use distinct cache entries — provided the
owner contains no `/` and the repo contains no `@`; without that restriction
distinct triples can collide (see the counterexample). -/
theorem C10_key_injective_restricted (o₁ r₁ b₁ o₂ r₂ b₂ : String)
    (ho₁ : ('/' : Char) ∉ o₁.data) (ho₂ : ('/' : Char) ∉ o₂.data)
    (hr₁ : ('@' : Char) ∉ r₁.data) (hr₂ : ('@' : Char) ∉ r₂.data)
    (h : makeKey o₁ r₁ b₁ = makeKey o₂ r₂ b₂) :
    o₁ = o₂ ∧ r₁ = r₂ ∧ b₁ = b₂ := by
  have hd := congrArg String.data h
  have hslash : ("/" : String).data = ['/'] := rfl
  have hat : ("@" : String).data = ['@'] := rfl
  simp only [makeKey, String.data_append, hslash, hat, List.append_assoc,
    List.singleton_append] at hd
  obtain ⟨h1, h2⟩ := append_cons_char_inj o₁.data ho₁ ho₂ hd
  obtain ⟨h3, h4⟩ := append_cons_char_inj r₁.data hr₁ hr₂ h2
  exact ⟨String.ext h1, String.ext h3, String.ext h4⟩

/-- C10 amended witness: applied to the separator-free triple
`("acme", "widgets", "main")` on both sides. -/
theorem C10_key_injective_restricted_witness :
    ('/' : Char) ∉ ("acme" : String).data ∧
    ('@' : Char) ∉ ("widgets" : String).data ∧
    makeKey "acme" "widgets" "main" = makeKey "acme" "widgets" "main" ∧
    (("acme" : String) = "acme" ∧ ("widgets" : String) = "widgets" ∧
      ("main" : String) = "main") :=
  ⟨by decide, by decide, rfl,
    C10_key_injective_restricted "acme" "widgets" "main" "acme" "widgets" "main"
      (by decide) (by decide) (by decide) (by decide) rfl⟩

end GithubCodeowners
